import Mathlib

/-!
Shallow embedding of the per-frame locomotion update loop of the
3JS-stickman repository.  The repository holds three near-duplicate
variants of the same program:

* `src/main.js` — flat ground plane at height 0, gravity -0.01,
  jump impulse 0.2, a single `direction` vector overwritten by the
  forward/backward key handlers, idle limbs reset directly to 0;
* `src/unnamed/part_001` — flat ground at `groundLevel`, gravity -0.02,
  jump impulse 0.3, independent forward/backward displacement (backward
  at 0.6 of the speed), idle limbs lerped toward 0 by 0.1, a walking
  body bob added on top of the ground level;
* `src/unnamed/part_000` — identical to `part_001` except ground
  resolution casts a downward ray from one unit above the character
  against an asynchronously loaded platform mesh.

Positions, velocities, angles and the per-frame clock are modelled as
real numbers; the keyboard snapshot read at the top of each frame is a
record of booleans.  Each variant's `animate` body is translated, in
source order, into a composition of small state transformers.
-/

noncomputable section

namespace Stickman

/-- Keyboard snapshot read by one frame of the animation loop, together
with the clock value supplied to the limb animation (the source reads
enumerated key flags and the current time once per frame).  `shift`
stands for the run modifier (ShiftLeft/ShiftRight in the variants),
`space` for the jump key, and `time` for the seconds clock obtained
from the host once per frame. -/
structure Input where
  up : Bool
  down : Bool
  left : Bool
  right : Bool
  shift : Bool
  space : Bool
  time : ℝ

/-- The input with the jump key released and everything else as given. -/
def noJump (i : Input) : Input :=
  { i with space := false }

/-- Mutable character state of the `part_000`/`part_001` variants:
the group transform (position and yaw), the vertical velocity, the
one-shot jump force, the airborne latch `isJumping`, the four limb
pivot angles, and the remembered ground level used both by the flat
clamp (`part_001`, where it is the constant leg length) and as the
rest height for the walking bob (`part_000` updates it from the ray
contact). -/
structure CharState where
  posX : ℝ
  posY : ℝ
  posZ : ℝ
  yaw : ℝ
  velY : ℝ
  jumpForce : ℝ
  isJumping : Bool
  leftArm : ℝ
  rightArm : ℝ
  leftLeg : ℝ
  rightLeg : ℝ
  groundLevel : ℝ

/-- THREE.MathUtils.lerp. -/
def lerp (x y t : ℝ) : ℝ :=
  x + (y - x) * t

/-- Walk speed of `part_000`/`part_001` (`state.walkSpeed`). -/
def walkSpeed : ℝ := 0.05

/-- Run speed of `part_000`/`part_001` (`state.runSpeed`). -/
def runSpeed : ℝ := 0.12

/-- Turn speed of `part_000`/`part_001` (`state.turnSpeed`). -/
def turnSpeed : ℝ := 0.06

/-- Gravity of `part_000`/`part_001` (`state.gravity`). -/
def gravity : ℝ := -0.02

/-- Jump force magnitude of `part_000`/`part_001`. -/
def jumpImpulse : ℝ := 0.3

/-- Per-frame movement speed: `state.isRunning ? runSpeed : walkSpeed`. -/
def moveSpeed (running : Bool) : ℝ :=
  if running then runSpeed else walkSpeed

/-- Whether this frame's input sets `state.isWalking` in
`part_000`/`part_001`: a forward or backward key is held. -/
def isWalking (i : Input) : Bool :=
  i.up || i.down

/-- Forward/backward key handling of `part_000`/`part_001`: if up is
held, add `(sin yaw, 0, cos yaw) * moveSpeed` to the position; if down
is held, add `(-sin yaw, 0, -cos yaw) * (moveSpeed * 0.6)`.  The two
branches are independent; both run when both keys are held. -/
def applyMovement (s : CharState) (i : Input) : CharState :=
  let ms := moveSpeed i.shift
  let s1 :=
    if i.up then
      { s with posX := s.posX + Real.sin s.yaw * ms
               posZ := s.posZ + Real.cos s.yaw * ms }
    else s
  if i.down then
    { s1 with posX := s1.posX + (-Real.sin s1.yaw) * (ms * 0.6)
              posZ := s1.posZ + (-Real.cos s1.yaw) * (ms * 0.6) }
  else s1

/-- Turn key handling of `part_000`/`part_001`: left adds `turnSpeed`
to the yaw, right subtracts it, unconditionally (also while airborne). -/
def applyTurn (s : CharState) (i : Input) : CharState :=
  let s1 := if i.left then { s with yaw := s.yaw + turnSpeed } else s
  if i.right then { s1 with yaw := s1.yaw - turnSpeed } else s1

/-- Jump trigger of `part_000`/`part_001`: if the jump key is held and
the airborne latch is clear, set the one-shot jump force and latch
airborne. -/
def applyJump (s : CharState) (i : Input) : CharState :=
  if i.space && !s.isJumping then
    { s with jumpForce := jumpImpulse, isJumping := true }
  else s

/-- Euler integration of `part_000`/`part_001`: add gravity and the
one-shot jump force to the vertical velocity, clear the jump force,
and add the velocity to the height. -/
def integrate (s : CharState) : CharState :=
  let v := s.velY + gravity + s.jumpForce
  { s with velY := v, jumpForce := 0, posY := s.posY + v }

/-- State reached just before ground resolution in one frame of
`part_000`/`part_001`: movement, then turning, then the jump trigger,
then vertical integration, in source order. -/
def preContact (s : CharState) (i : Input) : CharState :=
  integrate (applyJump (applyTurn (applyMovement s i) i) i)

/-- Flat-ground resolution of `part_001`: if the height is at or below
the ground level, clamp it to the ground level, zero the vertical
velocity and clear the airborne latch. -/
def resolveFlat (s : CharState) : CharState :=
  if s.posY ≤ s.groundLevel then
    { s with posY := s.groundLevel, velY := 0, isJumping := false }
  else s

/-- A surface queried by the downward ray of `part_000`: an optional
contact height for each horizontal position (the loaded platform mesh
seen through the intersection test). -/
def Surface : Type := ℝ → ℝ → Option ℝ

/-- Downward ray intersection of `part_000`, modelling the library's
ray test: the ray starts at height `originY` above `(x, z)` and points
straight down, so it reports the surface's contact height exactly when
the surface is present there and not above the ray origin. -/
def raycastDown (h : Surface) (x z originY : ℝ) : Option ℝ :=
  match h x z with
  | none => none
  | some c => if c ≤ originY then some c else none

/-- Mesh-ground resolution of `part_000`: if no platform mesh is
loaded, do nothing; otherwise cast the downward ray from one unit
above the character, and on a hit: clamp to the contact height (with
velocity zeroed and the airborne latch cleared) when the height is at
most the contact height plus 0.01, and in any case remember the
contact height as the new ground level. -/
def resolveMesh (surf : Option Surface) (s : CharState) : CharState :=
  match surf with
  | none => s
  | some h =>
    match raycastDown h s.posX s.posZ (s.posY + 1) with
    | none => s
    | some c =>
      let s1 :=
        if s.posY ≤ c + 0.01 then
          { s with posY := c, velY := 0, isJumping := false }
        else s
      { s1 with groundLevel := c }

/-- Walk-cycle frequency of `part_000`/`part_001`. -/
def frequency (running : Bool) : ℝ :=
  if running then 5 else 3

/-- Arm swing amplitude of `part_000`/`part_001`. -/
def armAmplitude (running : Bool) : ℝ :=
  if running then 0.8 else 0.5

/-- Leg swing amplitude of `part_000`/`part_001`. -/
def legAmplitude (running : Bool) : ℝ :=
  if running then 1.0 else 0.6

/-- Body bob of `part_000`/`part_001` while walking. -/
def bodyBob (running : Bool) (t : ℝ) : ℝ :=
  |Real.sin (t * frequency running * 2)| * 0.05

/-- `animateWalking` of `part_000`/`part_001`: when not walking, lerp
every limb angle toward 0 by 0.1 and return; when walking, drive the
limbs by the sine cycle and its half-period-shifted opposite, and set
the height to the ground level plus the body bob. -/
def animateWalking (walking running : Bool) (t : ℝ) (s : CharState) : CharState :=
  if !walking then
    { s with leftArm := lerp s.leftArm 0 0.1
             rightArm := lerp s.rightArm 0 0.1
             leftLeg := lerp s.leftLeg 0 0.1
             rightLeg := lerp s.rightLeg 0 0.1 }
  else
    let cycle := Real.sin (t * frequency running)
    let oppositeCycle := Real.sin (t * frequency running + Real.pi)
    { s with leftArm := cycle * armAmplitude running
             rightArm := oppositeCycle * armAmplitude running
             leftLeg := oppositeCycle * legAmplitude running
             rightLeg := cycle * legAmplitude running
             posY := s.groundLevel + bodyBob running t }

/-- One frame of the `part_001` animation loop: input handling and
physics, flat-ground resolution, then the limb animation. -/
def step001 (s : CharState) (i : Input) : CharState :=
  animateWalking (isWalking i) i.shift i.time (resolveFlat (preContact s i))

/-- One frame of the `part_000` animation loop: identical to
`part_001` except ground resolution goes through the downward ray
against the optional platform mesh. -/
def step000 (surf : Option Surface) (s : CharState) (i : Input) : CharState :=
  animateWalking (isWalking i) i.shift i.time (resolveMesh surf (preContact s i))

/-- Trace of the `part_001` loop: state after `n` frames driven by the
input stream `ins`. -/
def run001 (ins : ℕ → Input) (s : CharState) : ℕ → CharState
  | 0 => s
  | n + 1 => step001 (run001 ins s n) (ins n)

/-- Trace of the `part_000` loop against a fixed surface state. -/
def run000 (surf : Option Surface) (ins : ℕ → Input) (s : CharState) : ℕ → CharState
  | 0 => s
  | n + 1 => step000 surf (run000 surf ins s n) (ins n)

/-- Mutable character state of the `main.js` variant (its ground plane
sits at height 0 and its ground level is not part of the state). -/
structure MainState where
  posX : ℝ
  posY : ℝ
  posZ : ℝ
  yaw : ℝ
  velY : ℝ
  jumpForce : ℝ
  isJumping : Bool
  leftArm : ℝ
  rightArm : ℝ
  leftLeg : ℝ
  rightLeg : ℝ

/-- Gravity of `main.js`. -/
def gravityMain : ℝ := -0.01

/-- Walk speed of `main.js` (`state.speed`). -/
def walkSpeedMain : ℝ := 0.05

/-- Run speed of `main.js`. -/
def runSpeedMain : ℝ := 0.1

/-- Turn speed of `main.js`. -/
def turnSpeedMain : ℝ := 0.05

/-- Jump force magnitude of `main.js`. -/
def jumpImpulseMain : ℝ := 0.2

/-- `state.direction.z` in `main.js` after the key handlers ran: the
vector is reset to 0, the up handler writes -1, and the down handler,
running second, overwrites it with 1. -/
def directionZ (i : Input) : ℝ :=
  if i.down then 1 else if i.up then -1 else 0

/-- Limb swing of `main.js` (`animateStickmanLimbs`): when walking the
limbs follow the sine cycle at amplitude 0.7, otherwise they are set
to 0 directly. -/
def swingMain (walking running : Bool) (t : ℝ) : ℝ :=
  if walking then Real.sin (t * (if running then 2.5 else 1.5)) * 0.7 else 0

/-- Opposite-phase limb swing of `main.js`. -/
def swingOppMain (walking running : Bool) (t : ℝ) : ℝ :=
  if walking then Real.sin (t * (if running then 2.5 else 1.5) + Real.pi) * 0.7 else 0

/-- Turn key handling of `main.js`. -/
def applyTurnMain (m : MainState) (i : Input) : MainState :=
  let m1 := if i.left then { m with yaw := m.yaw + turnSpeedMain } else m
  if i.right then { m1 with yaw := m1.yaw - turnSpeedMain } else m1

/-- Jump trigger of `main.js`. -/
def applyJumpMain (m : MainState) (i : Input) : MainState :=
  if i.space && !m.isJumping then
    { m with jumpForce := jumpImpulseMain, isJumping := true }
  else m

/-- Velocity integration of `main.js`: gravity plus the one-shot jump
force, which is then cleared. -/
def integrateMain (m : MainState) : MainState :=
  let v := m.velY + gravityMain + m.jumpForce
  { m with velY := v, jumpForce := 0 }

/-- Horizontal translation of `main.js`: when walking, displace along
the single `direction` vector rotated by the yaw, at the current move
speed. -/
def translateMain (m : MainState) (i : Input) : MainState :=
  let ms := if i.shift then runSpeedMain else walkSpeedMain
  if i.up || i.down then
    { m with posX := m.posX + directionZ i * Real.sin m.yaw * ms
             posZ := m.posZ + directionZ i * Real.cos m.yaw * ms }
  else m

/-- Vertical displacement of `main.js`: add the velocity to the height. -/
def fallMain (m : MainState) : MainState :=
  { m with posY := m.posY + m.velY }

/-- Ground collision of `main.js`: clamp to the plane at height 0. -/
def clampMain (m : MainState) : MainState :=
  if m.posY ≤ 0 then { m with posY := 0, velY := 0, isJumping := false } else m

/-- `animateStickmanLimbs` of `main.js`: pose the limbs from the
current clock, directly (no smoothing toward rest). -/
def limbsMain (walking running : Bool) (t : ℝ) (m : MainState) : MainState :=
  { m with leftArm := swingMain walking running t
           rightArm := swingOppMain walking running t
           leftLeg := swingOppMain walking running t
           rightLeg := swingMain walking running t }

/-- One frame of the `main.js` animation loop, in source order:
turn, trigger the jump, integrate the vertical velocity, displace
along the rotated direction when walking, apply the vertical velocity,
clamp to the ground plane at height 0, and pose the limbs. -/
def stepMain (m : MainState) (i : Input) : MainState :=
  limbsMain (i.up || i.down) i.shift i.time
    (clampMain (fallMain (translateMain (integrateMain (applyJumpMain (applyTurnMain m i) i)) i)))

/-- Trace of the `main.js` loop. -/
def runMain (ins : ℕ → Input) (s : MainState) : ℕ → MainState
  | 0 => s
  | n + 1 => stepMain (runMain ins s n) (ins n)

/-! ### Field characterizations of the step components -/

variable (s : CharState) (i : Input)

@[simp] lemma applyMovement_posY : (applyMovement s i).posY = s.posY := by
  simp only [applyMovement]; split_ifs <;> rfl

@[simp] lemma applyMovement_velY : (applyMovement s i).velY = s.velY := by
  simp only [applyMovement]; split_ifs <;> rfl

@[simp] lemma applyMovement_yaw : (applyMovement s i).yaw = s.yaw := by
  simp only [applyMovement]; split_ifs <;> rfl

@[simp] lemma applyMovement_jumpForce : (applyMovement s i).jumpForce = s.jumpForce := by
  simp only [applyMovement]; split_ifs <;> rfl

@[simp] lemma applyMovement_isJumping : (applyMovement s i).isJumping = s.isJumping := by
  simp only [applyMovement]; split_ifs <;> rfl

@[simp] lemma applyMovement_groundLevel : (applyMovement s i).groundLevel = s.groundLevel := by
  simp only [applyMovement]; split_ifs <;> rfl

@[simp] lemma applyMovement_leftArm : (applyMovement s i).leftArm = s.leftArm := by
  simp only [applyMovement]; split_ifs <;> rfl

@[simp] lemma applyMovement_rightArm : (applyMovement s i).rightArm = s.rightArm := by
  simp only [applyMovement]; split_ifs <;> rfl

@[simp] lemma applyMovement_leftLeg : (applyMovement s i).leftLeg = s.leftLeg := by
  simp only [applyMovement]; split_ifs <;> rfl

@[simp] lemma applyMovement_rightLeg : (applyMovement s i).rightLeg = s.rightLeg := by
  simp only [applyMovement]; split_ifs <;> rfl

lemma applyMovement_posX :
    (applyMovement s i).posX = s.posX
      + (if i.up then Real.sin s.yaw * moveSpeed i.shift else 0)
      + (if i.down then -Real.sin s.yaw * (moveSpeed i.shift * 0.6) else 0) := by
  simp only [applyMovement]; split_ifs <;> simp

lemma applyMovement_posZ :
    (applyMovement s i).posZ = s.posZ
      + (if i.up then Real.cos s.yaw * moveSpeed i.shift else 0)
      + (if i.down then -Real.cos s.yaw * (moveSpeed i.shift * 0.6) else 0) := by
  simp only [applyMovement]; split_ifs <;> simp

lemma applyTurn_yaw :
    (applyTurn s i).yaw = s.yaw + (if i.left then turnSpeed else 0)
      - (if i.right then turnSpeed else 0) := by
  simp only [applyTurn]; split_ifs <;> simp

@[simp] lemma applyTurn_posX : (applyTurn s i).posX = s.posX := by
  simp only [applyTurn]; split_ifs <;> rfl

@[simp] lemma applyTurn_posY : (applyTurn s i).posY = s.posY := by
  simp only [applyTurn]; split_ifs <;> rfl

@[simp] lemma applyTurn_posZ : (applyTurn s i).posZ = s.posZ := by
  simp only [applyTurn]; split_ifs <;> rfl

@[simp] lemma applyTurn_velY : (applyTurn s i).velY = s.velY := by
  simp only [applyTurn]; split_ifs <;> rfl

@[simp] lemma applyTurn_jumpForce : (applyTurn s i).jumpForce = s.jumpForce := by
  simp only [applyTurn]; split_ifs <;> rfl

@[simp] lemma applyTurn_isJumping : (applyTurn s i).isJumping = s.isJumping := by
  simp only [applyTurn]; split_ifs <;> rfl

@[simp] lemma applyTurn_groundLevel : (applyTurn s i).groundLevel = s.groundLevel := by
  simp only [applyTurn]; split_ifs <;> rfl

@[simp] lemma applyTurn_leftArm : (applyTurn s i).leftArm = s.leftArm := by
  simp only [applyTurn]; split_ifs <;> rfl

@[simp] lemma applyTurn_rightArm : (applyTurn s i).rightArm = s.rightArm := by
  simp only [applyTurn]; split_ifs <;> rfl

@[simp] lemma applyTurn_leftLeg : (applyTurn s i).leftLeg = s.leftLeg := by
  simp only [applyTurn]; split_ifs <;> rfl

@[simp] lemma applyTurn_rightLeg : (applyTurn s i).rightLeg = s.rightLeg := by
  simp only [applyTurn]; split_ifs <;> rfl

lemma applyJump_jumpForce :
    (applyJump s i).jumpForce =
      if i.space && !s.isJumping then jumpImpulse else s.jumpForce := by
  simp only [applyJump]; split_ifs <;> rfl

lemma applyJump_isJumping : (applyJump s i).isJumping = (i.space || s.isJumping) := by
  simp only [applyJump]
  cases hs : s.isJumping <;> cases hsp : i.space <;> simp [hs, hsp]

@[simp] lemma applyJump_posX : (applyJump s i).posX = s.posX := by
  simp only [applyJump]; split_ifs <;> rfl

@[simp] lemma applyJump_posY : (applyJump s i).posY = s.posY := by
  simp only [applyJump]; split_ifs <;> rfl

@[simp] lemma applyJump_posZ : (applyJump s i).posZ = s.posZ := by
  simp only [applyJump]; split_ifs <;> rfl

@[simp] lemma applyJump_yaw : (applyJump s i).yaw = s.yaw := by
  simp only [applyJump]; split_ifs <;> rfl

@[simp] lemma applyJump_velY : (applyJump s i).velY = s.velY := by
  simp only [applyJump]; split_ifs <;> rfl

@[simp] lemma applyJump_groundLevel : (applyJump s i).groundLevel = s.groundLevel := by
  simp only [applyJump]; split_ifs <;> rfl

@[simp] lemma applyJump_leftArm : (applyJump s i).leftArm = s.leftArm := by
  simp only [applyJump]; split_ifs <;> rfl

@[simp] lemma applyJump_rightArm : (applyJump s i).rightArm = s.rightArm := by
  simp only [applyJump]; split_ifs <;> rfl

@[simp] lemma applyJump_leftLeg : (applyJump s i).leftLeg = s.leftLeg := by
  simp only [applyJump]; split_ifs <;> rfl

@[simp] lemma applyJump_rightLeg : (applyJump s i).rightLeg = s.rightLeg := by
  simp only [applyJump]; split_ifs <;> rfl

@[simp] lemma integrate_velY : (integrate s).velY = s.velY + gravity + s.jumpForce := rfl

@[simp] lemma integrate_posY :
    (integrate s).posY = s.posY + (s.velY + gravity + s.jumpForce) := rfl

@[simp] lemma integrate_jumpForce : (integrate s).jumpForce = 0 := rfl

@[simp] lemma integrate_posX : (integrate s).posX = s.posX := rfl

@[simp] lemma integrate_posZ : (integrate s).posZ = s.posZ := rfl

@[simp] lemma integrate_yaw : (integrate s).yaw = s.yaw := rfl

@[simp] lemma integrate_isJumping : (integrate s).isJumping = s.isJumping := rfl

@[simp] lemma integrate_groundLevel : (integrate s).groundLevel = s.groundLevel := rfl

@[simp] lemma integrate_leftArm : (integrate s).leftArm = s.leftArm := rfl

@[simp] lemma integrate_rightArm : (integrate s).rightArm = s.rightArm := rfl

@[simp] lemma integrate_leftLeg : (integrate s).leftLeg = s.leftLeg := rfl

@[simp] lemma integrate_rightLeg : (integrate s).rightLeg = s.rightLeg := rfl

lemma resolveFlat_of_le (h : s.posY ≤ s.groundLevel) :
    resolveFlat s = { s with posY := s.groundLevel, velY := 0, isJumping := false } := by
  simp only [resolveFlat, if_pos h]

lemma resolveFlat_of_gt (h : s.groundLevel < s.posY) : resolveFlat s = s := by
  simp only [resolveFlat, if_neg (not_le.mpr h)]

@[simp] lemma resolveFlat_posX : (resolveFlat s).posX = s.posX := by
  simp only [resolveFlat]; split_ifs <;> rfl

@[simp] lemma resolveFlat_posZ : (resolveFlat s).posZ = s.posZ := by
  simp only [resolveFlat]; split_ifs <;> rfl

@[simp] lemma resolveFlat_yaw : (resolveFlat s).yaw = s.yaw := by
  simp only [resolveFlat]; split_ifs <;> rfl

@[simp] lemma resolveFlat_jumpForce : (resolveFlat s).jumpForce = s.jumpForce := by
  simp only [resolveFlat]; split_ifs <;> rfl

@[simp] lemma resolveFlat_groundLevel : (resolveFlat s).groundLevel = s.groundLevel := by
  simp only [resolveFlat]; split_ifs <;> rfl

@[simp] lemma resolveFlat_leftArm : (resolveFlat s).leftArm = s.leftArm := by
  simp only [resolveFlat]; split_ifs <;> rfl

@[simp] lemma resolveFlat_rightArm : (resolveFlat s).rightArm = s.rightArm := by
  simp only [resolveFlat]; split_ifs <;> rfl

@[simp] lemma resolveFlat_leftLeg : (resolveFlat s).leftLeg = s.leftLeg := by
  simp only [resolveFlat]; split_ifs <;> rfl

@[simp] lemma resolveFlat_rightLeg : (resolveFlat s).rightLeg = s.rightLeg := by
  simp only [resolveFlat]; split_ifs <;> rfl

variable (walking running : Bool) (t : ℝ)

lemma animateWalking_of_not (h : walking = false) :
    animateWalking walking running t s =
      { s with leftArm := lerp s.leftArm 0 0.1
               rightArm := lerp s.rightArm 0 0.1
               leftLeg := lerp s.leftLeg 0 0.1
               rightLeg := lerp s.rightLeg 0 0.1 } := by
  simp [animateWalking, h]

lemma animateWalking_of_walk (h : walking = true) :
    animateWalking walking running t s =
      { s with leftArm := Real.sin (t * frequency running) * armAmplitude running
               rightArm := Real.sin (t * frequency running + Real.pi) * armAmplitude running
               leftLeg := Real.sin (t * frequency running + Real.pi) * legAmplitude running
               rightLeg := Real.sin (t * frequency running) * legAmplitude running
               posY := s.groundLevel + bodyBob running t } := by
  simp [animateWalking, h]

@[simp] lemma animateWalking_posX : (animateWalking walking running t s).posX = s.posX := by
  simp only [animateWalking]; split_ifs <;> rfl

@[simp] lemma animateWalking_posZ : (animateWalking walking running t s).posZ = s.posZ := by
  simp only [animateWalking]; split_ifs <;> rfl

@[simp] lemma animateWalking_yaw : (animateWalking walking running t s).yaw = s.yaw := by
  simp only [animateWalking]; split_ifs <;> rfl

@[simp] lemma animateWalking_velY : (animateWalking walking running t s).velY = s.velY := by
  simp only [animateWalking]; split_ifs <;> rfl

@[simp] lemma animateWalking_jumpForce :
    (animateWalking walking running t s).jumpForce = s.jumpForce := by
  simp only [animateWalking]; split_ifs <;> rfl

@[simp] lemma animateWalking_isJumping :
    (animateWalking walking running t s).isJumping = s.isJumping := by
  simp only [animateWalking]; split_ifs <;> rfl

@[simp] lemma animateWalking_groundLevel :
    (animateWalking walking running t s).groundLevel = s.groundLevel := by
  simp only [animateWalking]; split_ifs <;> rfl

lemma animateWalking_posY_of_walk (h : walking = true) :
    (animateWalking walking running t s).posY = s.groundLevel + bodyBob running t := by
  rw [animateWalking_of_walk s walking running t h]

lemma animateWalking_posY_of_not (h : walking = false) :
    (animateWalking walking running t s).posY = s.posY := by
  rw [animateWalking_of_not s walking running t h]

/-- The vertical velocity entering ground resolution: gravity plus the
one-shot jump force chosen by this frame's trigger. -/
lemma preContact_velY :
    (preContact s i).velY = s.velY + gravity
      + (if i.space && !s.isJumping then jumpImpulse else s.jumpForce) := by
  simp [preContact, applyJump_jumpForce]

lemma preContact_posY :
    (preContact s i).posY = s.posY + (s.velY + gravity
      + (if i.space && !s.isJumping then jumpImpulse else s.jumpForce)) := by
  simp [preContact, applyJump_jumpForce]

@[simp] lemma preContact_jumpForce : (preContact s i).jumpForce = 0 := by
  simp [preContact]

lemma preContact_isJumping : (preContact s i).isJumping = (i.space || s.isJumping) := by
  simp [preContact, applyJump_isJumping]

@[simp] lemma preContact_groundLevel : (preContact s i).groundLevel = s.groundLevel := by
  simp [preContact]

lemma preContact_yaw :
    (preContact s i).yaw = s.yaw + (if i.left then turnSpeed else 0)
      - (if i.right then turnSpeed else 0) := by
  simp [preContact, applyTurn_yaw]

lemma preContact_posX :
    (preContact s i).posX = s.posX
      + (if i.up then Real.sin s.yaw * moveSpeed i.shift else 0)
      + (if i.down then -Real.sin s.yaw * (moveSpeed i.shift * 0.6) else 0) := by
  simp [preContact, applyMovement_posX]

lemma preContact_posZ :
    (preContact s i).posZ = s.posZ
      + (if i.up then Real.cos s.yaw * moveSpeed i.shift else 0)
      + (if i.down then -Real.cos s.yaw * (moveSpeed i.shift * 0.6) else 0) := by
  simp [preContact, applyMovement_posZ]

@[simp] lemma preContact_leftArm : (preContact s i).leftArm = s.leftArm := by
  simp [preContact]

@[simp] lemma preContact_rightArm : (preContact s i).rightArm = s.rightArm := by
  simp [preContact]

@[simp] lemma preContact_leftLeg : (preContact s i).leftLeg = s.leftLeg := by
  simp [preContact]

@[simp] lemma preContact_rightLeg : (preContact s i).rightLeg = s.rightLeg := by
  simp [preContact]

@[simp] lemma resolveMesh_none : resolveMesh none s = s := rfl

lemma resolveMesh_no_hit (h : Surface)
    (hh : raycastDown h s.posX s.posZ (s.posY + 1) = none) :
    resolveMesh (some h) s = s := by
  simp only [resolveMesh, hh]

lemma resolveMesh_hit_clamp (h : Surface) (c : ℝ)
    (hh : raycastDown h s.posX s.posZ (s.posY + 1) = some c)
    (hc : s.posY ≤ c + 0.01) :
    resolveMesh (some h) s =
      { s with posY := c, velY := 0, isJumping := false, groundLevel := c } := by
  simp only [resolveMesh, hh, if_pos hc]

lemma raycastDown_none_of_above (h : Surface) (x z originY : ℝ)
    (hup : ∀ c, h x z = some c → originY < c) :
    raycastDown h x z originY = none := by
  unfold raycastDown
  cases hc : h x z with
  | none => rfl
  | some c => simp [not_le.mpr (hup c hc)]

lemma raycastDown_hit (h : Surface) (x z originY c : ℝ)
    (hc : h x z = some c) (hle : c ≤ originY) :
    raycastDown h x z originY = some c := by
  unfold raycastDown
  simp [hc, hle]

lemma bodyBob_nonneg : 0 ≤ bodyBob running t :=
  mul_nonneg (abs_nonneg _) (by norm_num)

lemma bodyBob_le : bodyBob running t ≤ 0.05 := by
  have h1 : |Real.sin (t * frequency running * 2)| ≤ 1 :=
    abs_le.mpr ⟨Real.neg_one_le_sin _, Real.sin_le_one _⟩
  calc bodyBob running t ≤ 1 * 0.05 := by
        exact mul_le_mul_of_nonneg_right h1 (by norm_num)
    _ = 0.05 := by norm_num

/-! ### Composition facts for the three step functions -/

lemma step001_def :
    step001 s i = animateWalking (isWalking i) i.shift i.time (resolveFlat (preContact s i)) :=
  rfl

/-- With no platform mesh loaded, the `part_000` frame performs no
ground resolution at all. -/
lemma step000_none :
    step000 none s i = animateWalking (isWalking i) i.shift i.time (preContact s i) :=
  rfl

lemma step001_jumpForce : (step001 s i).jumpForce = 0 := by
  simp [step001]

lemma step001_yaw :
    (step001 s i).yaw = s.yaw + (if i.left then turnSpeed else 0)
      - (if i.right then turnSpeed else 0) := by
  simp [step001, preContact_yaw]

lemma step001_posX :
    (step001 s i).posX = s.posX
      + (if i.up then Real.sin s.yaw * moveSpeed i.shift else 0)
      + (if i.down then -Real.sin s.yaw * (moveSpeed i.shift * 0.6) else 0) := by
  simp [step001, preContact_posX]

lemma step001_posZ :
    (step001 s i).posZ = s.posZ
      + (if i.up then Real.cos s.yaw * moveSpeed i.shift else 0)
      + (if i.down then -Real.cos s.yaw * (moveSpeed i.shift * 0.6) else 0) := by
  simp [step001, preContact_posZ]

lemma step000_none_velY :
    (step000 none s i).velY = s.velY + gravity
      + (if i.space && !s.isJumping then jumpImpulse else s.jumpForce) := by
  simp [step000_none, preContact_velY]

lemma step000_none_isJumping :
    (step000 none s i).isJumping = (i.space || s.isJumping) := by
  simp [step000_none, preContact_isJumping]

lemma step000_none_jumpForce : (step000 none s i).jumpForce = 0 := by
  simp [step000_none]

lemma step000_none_groundLevel : (step000 none s i).groundLevel = s.groundLevel := by
  simp [step000_none]

lemma step000_none_posY_of_not (h : isWalking i = false) :
    (step000 none s i).posY = (preContact s i).posY := by
  rw [step000_none, animateWalking_posY_of_not _ _ _ _ h]

/-! ### The `main.js` step: how each field of one frame is produced -/

variable (m : MainState)

/-- Yaw produced by the `main.js` turn handlers. -/
def yawMain (m : MainState) (i : Input) : ℝ :=
  m.yaw + (if i.left then turnSpeedMain else 0) - (if i.right then turnSpeedMain else 0)

/-- Vertical velocity of `main.js` after integration, before the clamp. -/
def velMidMain (m : MainState) (i : Input) : ℝ :=
  m.velY + gravityMain + (if i.space && !m.isJumping then jumpImpulseMain else m.jumpForce)

/-- Height of `main.js` after integration, before the clamp. -/
def posYMidMain (m : MainState) (i : Input) : ℝ :=
  m.posY + velMidMain m i

@[simp] lemma applyTurnMain_posX : (applyTurnMain m i).posX = m.posX := by
  simp only [applyTurnMain]; split_ifs <;> rfl

@[simp] lemma applyTurnMain_posY : (applyTurnMain m i).posY = m.posY := by
  simp only [applyTurnMain]; split_ifs <;> rfl

@[simp] lemma applyTurnMain_posZ : (applyTurnMain m i).posZ = m.posZ := by
  simp only [applyTurnMain]; split_ifs <;> rfl

@[simp] lemma applyTurnMain_velY : (applyTurnMain m i).velY = m.velY := by
  simp only [applyTurnMain]; split_ifs <;> rfl

@[simp] lemma applyTurnMain_jumpForce : (applyTurnMain m i).jumpForce = m.jumpForce := by
  simp only [applyTurnMain]; split_ifs <;> rfl

@[simp] lemma applyTurnMain_isJumping : (applyTurnMain m i).isJumping = m.isJumping := by
  simp only [applyTurnMain]; split_ifs <;> rfl

lemma applyTurnMain_yaw : (applyTurnMain m i).yaw = yawMain m i := by
  simp only [applyTurnMain, yawMain]; split_ifs <;> simp

lemma applyJumpMain_jumpForce :
    (applyJumpMain m i).jumpForce =
      if i.space && !m.isJumping then jumpImpulseMain else m.jumpForce := by
  simp only [applyJumpMain]; split_ifs <;> rfl

lemma applyJumpMain_isJumping : (applyJumpMain m i).isJumping = (i.space || m.isJumping) := by
  simp only [applyJumpMain]
  cases hs : m.isJumping <;> cases hsp : i.space <;> simp [hs, hsp]

@[simp] lemma applyJumpMain_posX : (applyJumpMain m i).posX = m.posX := by
  simp only [applyJumpMain]; split_ifs <;> rfl

@[simp] lemma applyJumpMain_posY : (applyJumpMain m i).posY = m.posY := by
  simp only [applyJumpMain]; split_ifs <;> rfl

@[simp] lemma applyJumpMain_posZ : (applyJumpMain m i).posZ = m.posZ := by
  simp only [applyJumpMain]; split_ifs <;> rfl

@[simp] lemma applyJumpMain_yaw : (applyJumpMain m i).yaw = m.yaw := by
  simp only [applyJumpMain]; split_ifs <;> rfl

@[simp] lemma applyJumpMain_velY : (applyJumpMain m i).velY = m.velY := by
  simp only [applyJumpMain]; split_ifs <;> rfl

@[simp] lemma integrateMain_velY : (integrateMain m).velY = m.velY + gravityMain + m.jumpForce := rfl

@[simp] lemma integrateMain_jumpForce : (integrateMain m).jumpForce = 0 := rfl

@[simp] lemma integrateMain_posX : (integrateMain m).posX = m.posX := rfl

@[simp] lemma integrateMain_posY : (integrateMain m).posY = m.posY := rfl

@[simp] lemma integrateMain_posZ : (integrateMain m).posZ = m.posZ := rfl

@[simp] lemma integrateMain_yaw : (integrateMain m).yaw = m.yaw := rfl

@[simp] lemma integrateMain_isJumping : (integrateMain m).isJumping = m.isJumping := rfl

lemma translateMain_posX :
    (translateMain m i).posX = m.posX
      + (if i.up || i.down then
          directionZ i * Real.sin m.yaw * (if i.shift then runSpeedMain else walkSpeedMain)
        else 0) := by
  simp only [translateMain]; split_ifs <;> simp

lemma translateMain_posZ :
    (translateMain m i).posZ = m.posZ
      + (if i.up || i.down then
          directionZ i * Real.cos m.yaw * (if i.shift then runSpeedMain else walkSpeedMain)
        else 0) := by
  simp only [translateMain]; split_ifs <;> simp

@[simp] lemma translateMain_posY : (translateMain m i).posY = m.posY := by
  simp only [translateMain]; split_ifs <;> rfl

@[simp] lemma translateMain_yaw : (translateMain m i).yaw = m.yaw := by
  simp only [translateMain]; split_ifs <;> rfl

@[simp] lemma translateMain_velY : (translateMain m i).velY = m.velY := by
  simp only [translateMain]; split_ifs <;> rfl

@[simp] lemma translateMain_jumpForce : (translateMain m i).jumpForce = m.jumpForce := by
  simp only [translateMain]; split_ifs <;> rfl

@[simp] lemma translateMain_isJumping : (translateMain m i).isJumping = m.isJumping := by
  simp only [translateMain]; split_ifs <;> rfl

@[simp] lemma fallMain_posY : (fallMain m).posY = m.posY + m.velY := rfl

@[simp] lemma fallMain_velY : (fallMain m).velY = m.velY := rfl

@[simp] lemma fallMain_posX : (fallMain m).posX = m.posX := rfl

@[simp] lemma fallMain_posZ : (fallMain m).posZ = m.posZ := rfl

@[simp] lemma fallMain_yaw : (fallMain m).yaw = m.yaw := rfl

@[simp] lemma fallMain_jumpForce : (fallMain m).jumpForce = m.jumpForce := rfl

@[simp] lemma fallMain_isJumping : (fallMain m).isJumping = m.isJumping := rfl

@[simp] lemma clampMain_posX : (clampMain m).posX = m.posX := by
  simp only [clampMain]; split_ifs <;> rfl

@[simp] lemma clampMain_posZ : (clampMain m).posZ = m.posZ := by
  simp only [clampMain]; split_ifs <;> rfl

@[simp] lemma clampMain_yaw : (clampMain m).yaw = m.yaw := by
  simp only [clampMain]; split_ifs <;> rfl

@[simp] lemma clampMain_jumpForce : (clampMain m).jumpForce = m.jumpForce := by
  simp only [clampMain]; split_ifs <;> rfl

@[simp] lemma limbsMain_posX : (limbsMain walking running t m).posX = m.posX := rfl

@[simp] lemma limbsMain_posY : (limbsMain walking running t m).posY = m.posY := rfl

@[simp] lemma limbsMain_posZ : (limbsMain walking running t m).posZ = m.posZ := rfl

@[simp] lemma limbsMain_yaw : (limbsMain walking running t m).yaw = m.yaw := rfl

@[simp] lemma limbsMain_velY : (limbsMain walking running t m).velY = m.velY := rfl

@[simp] lemma limbsMain_jumpForce : (limbsMain walking running t m).jumpForce = m.jumpForce := rfl

@[simp] lemma limbsMain_isJumping : (limbsMain walking running t m).isJumping = m.isJumping := rfl

lemma stepMain_yaw : (stepMain m i).yaw = yawMain m i := by
  simp [stepMain, applyTurnMain_yaw]

lemma stepMain_jumpForce : (stepMain m i).jumpForce = 0 := by
  simp [stepMain]

lemma stepMain_velY :
    (stepMain m i).velY = if posYMidMain m i ≤ 0 then 0 else velMidMain m i := by
  simp only [stepMain, limbsMain_velY, clampMain]
  have hv : (fallMain (translateMain (integrateMain (applyJumpMain (applyTurnMain m i) i)) i)).velY
      = velMidMain m i := by
    simp [velMidMain, applyJumpMain_jumpForce]
  have hp : (fallMain (translateMain (integrateMain (applyJumpMain (applyTurnMain m i) i)) i)).posY
      = posYMidMain m i := by
    simp [posYMidMain, velMidMain, applyJumpMain_jumpForce]
  split_ifs with h1 h2 <;> simp_all

lemma stepMain_posY :
    (stepMain m i).posY = if posYMidMain m i ≤ 0 then 0 else posYMidMain m i := by
  simp only [stepMain, limbsMain_posY, clampMain]
  have hp : (fallMain (translateMain (integrateMain (applyJumpMain (applyTurnMain m i) i)) i)).posY
      = posYMidMain m i := by
    simp [posYMidMain, velMidMain, applyJumpMain_jumpForce]
  split_ifs with h1 h2 <;> simp_all

lemma stepMain_isJumping :
    (stepMain m i).isJumping =
      if posYMidMain m i ≤ 0 then false else (i.space || m.isJumping) := by
  simp only [stepMain, limbsMain_isJumping, clampMain]
  have hp : (fallMain (translateMain (integrateMain (applyJumpMain (applyTurnMain m i) i)) i)).posY
      = posYMidMain m i := by
    simp [posYMidMain, velMidMain, applyJumpMain_jumpForce]
  have hj : (fallMain (translateMain (integrateMain (applyJumpMain (applyTurnMain m i) i)) i)).isJumping
      = (i.space || m.isJumping) := by
    simp [applyJumpMain_isJumping]
  split_ifs with h1 h2 <;> simp_all

lemma stepMain_posX :
    (stepMain m i).posX = m.posX
      + (if i.up || i.down then
          directionZ i * Real.sin (yawMain m i) * (if i.shift then runSpeedMain else walkSpeedMain)
        else 0) := by
  simp [stepMain, translateMain_posX, applyTurnMain_yaw]

lemma stepMain_posZ :
    (stepMain m i).posZ = m.posZ
      + (if i.up || i.down then
          directionZ i * Real.cos (yawMain m i) * (if i.shift then runSpeedMain else walkSpeedMain)
        else 0) := by
  simp [stepMain, translateMain_posZ, applyTurnMain_yaw]

lemma stepMain_leftArm :
    (stepMain m i).leftArm = swingMain (i.up || i.down) i.shift i.time := rfl

lemma stepMain_rightArm :
    (stepMain m i).rightArm = swingOppMain (i.up || i.down) i.shift i.time := rfl

lemma stepMain_leftLeg :
    (stepMain m i).leftLeg = swingOppMain (i.up || i.down) i.shift i.time := rfl

lemma stepMain_rightLeg :
    (stepMain m i).rightLeg = swingMain (i.up || i.down) i.shift i.time := rfl

lemma step001_leftArm_of_walk (h : isWalking i = true) :
    (step001 s i).leftArm = Real.sin (i.time * frequency i.shift) * armAmplitude i.shift := by
  rw [step001, animateWalking_of_walk _ _ _ _ h]

lemma step001_rightArm_of_walk (h : isWalking i = true) :
    (step001 s i).rightArm
      = Real.sin (i.time * frequency i.shift + Real.pi) * armAmplitude i.shift := by
  rw [step001, animateWalking_of_walk _ _ _ _ h]

lemma step001_leftLeg_of_walk (h : isWalking i = true) :
    (step001 s i).leftLeg
      = Real.sin (i.time * frequency i.shift + Real.pi) * legAmplitude i.shift := by
  rw [step001, animateWalking_of_walk _ _ _ _ h]

lemma step001_rightLeg_of_walk (h : isWalking i = true) :
    (step001 s i).rightLeg = Real.sin (i.time * frequency i.shift) * legAmplitude i.shift := by
  rw [step001, animateWalking_of_walk _ _ _ _ h]

lemma step001_leftArm_of_not (h : isWalking i = false) :
    (step001 s i).leftArm = lerp s.leftArm 0 0.1 := by
  rw [step001, animateWalking_of_not _ _ _ _ h]; simp

lemma step001_rightArm_of_not (h : isWalking i = false) :
    (step001 s i).rightArm = lerp s.rightArm 0 0.1 := by
  rw [step001, animateWalking_of_not _ _ _ _ h]; simp

lemma step001_leftLeg_of_not (h : isWalking i = false) :
    (step001 s i).leftLeg = lerp s.leftLeg 0 0.1 := by
  rw [step001, animateWalking_of_not _ _ _ _ h]; simp

lemma step001_rightLeg_of_not (h : isWalking i = false) :
    (step001 s i).rightLeg = lerp s.rightLeg 0 0.1 := by
  rw [step001, animateWalking_of_not _ _ _ _ h]; simp

/-! ### Concrete states and inputs used by witnesses and counterexamples -/

/-- Input snapshot with no key held, clock at 0. -/
def idleInput : Input := ⟨false, false, false, false, false, false, 0⟩

/-- Input snapshot holding only turn-left. -/
def leftInput : Input := ⟨false, false, true, false, false, false, 0⟩

/-- Input snapshot holding only forward, clock at 0. -/
def walkInput : Input := ⟨true, false, false, false, false, false, 0⟩

/-- Input snapshot holding only backward, clock at 0. -/
def backInput : Input := ⟨false, true, false, false, false, false, 0⟩

/-- Input snapshot holding forward and backward together, clock at 0. -/
def bothInput : Input := ⟨true, true, false, false, false, false, 0⟩

/-- Input snapshot holding only jump. -/
def jumpInput : Input := ⟨false, false, false, false, false, true, 0⟩

/-- The initial character state of `part_000`/`part_001`: at the
origin, raised to the leg length 1.3 * 1.8 = 2.34, at rest, with the
ground level remembered at that same height. -/
def restState : CharState := ⟨0, 2.34, 0, 0, 0, 0, false, 0, 0, 0, 0, 2.34⟩

/-- The initial character state of `main.js`: at the origin on the
ground plane at height 0. -/
def restStateMain : MainState := ⟨0, 0, 0, 0, 0, 0, false, 0, 0, 0, 0⟩

/-! ### The claims -/

/-- Claim C6: turn accumulation.  Holding turn-left for `K` consecutive
frames increases the yaw by exactly `K * turnSpeed`, whatever the other
keys do and whether or not the character is airborne, in both the
`part_000`/`part_001` loop and the `main.js` loop (with its own turn
speed); the step is a constant per frame, not scaled by elapsed time. -/
theorem turn_accumulation :
    (∀ (ins : ℕ → Input) (s : CharState) (K : ℕ),
        (∀ n, n < K → (ins n).left = true ∧ (ins n).right = false) →
        (run001 ins s K).yaw = s.yaw + K * turnSpeed)
    ∧ (∀ (ins : ℕ → Input) (m : MainState) (K : ℕ),
        (∀ n, n < K → (ins n).left = true ∧ (ins n).right = false) →
        (runMain ins m K).yaw = m.yaw + K * turnSpeedMain) := by
  constructor
  · intro ins s K h
    induction K with
    | zero => simp [run001]
    | succ k ih =>
      have hk : ∀ n, n < k → (ins n).left = true ∧ (ins n).right = false :=
        fun n hn => h n (hn.trans (Nat.lt_succ_self k))
      obtain ⟨hl, hr⟩ := h k (Nat.lt_succ_self k)
      rw [run001, step001_yaw, ih hk, hl, hr]
      push_cast
      simp
      ring
  · intro ins m K h
    induction K with
    | zero => simp [runMain]
    | succ k ih =>
      have hk : ∀ n, n < k → (ins n).left = true ∧ (ins n).right = false :=
        fun n hn => h n (hn.trans (Nat.lt_succ_self k))
      obtain ⟨hl, hr⟩ := h k (Nat.lt_succ_self k)
      rw [runMain, stepMain_yaw, yawMain, ih hk, hl, hr]
      push_cast
      simp
      ring

/-- Witness for C6: three frames of turn-left from rest turn the yaw by
exactly three turn steps, in both loops. -/
theorem turn_accumulation_witness :
    (run001 (fun _ => leftInput) restState 3).yaw = restState.yaw + 3 * turnSpeed
    ∧ (runMain (fun _ => leftInput) restStateMain 3).yaw
        = restStateMain.yaw + 3 * turnSpeedMain :=
  ⟨turn_accumulation.1 (fun _ => leftInput) restState 3 (fun _ _ => ⟨rfl, rfl⟩),
   turn_accumulation.2 (fun _ => leftInput) restStateMain 3 (fun _ _ => ⟨rfl, rfl⟩)⟩

/-- Claim C9: the walking bob overrides vertical physics.  In both bob
variants, whenever a forward or backward key is held, the frame ends
with the height set to the current ground level plus the bob term,
whatever gravity and the jump produced; in particular pressing jump
during a walking frame leaves the frame's final height unchanged. -/
theorem walking_bob_overrides :
    (∀ (s : CharState) (i : Input), isWalking i = true →
        (step001 s i).posY = s.groundLevel + bodyBob i.shift i.time)
    ∧ (∀ (surf : Option Surface) (s : CharState) (i : Input), isWalking i = true →
        (step000 surf s i).posY
          = (resolveMesh surf (preContact s i)).groundLevel + bodyBob i.shift i.time)
    ∧ (∀ (s : CharState) (i : Input), isWalking i = true →
        (step001 s i).posY = (step001 s (noJump i)).posY) := by
  refine ⟨fun s i h => ?_, fun surf s i h => ?_, fun s i h => ?_⟩
  · rw [step001, animateWalking_posY_of_walk _ _ _ _ h]
    simp
  · rw [step000, animateWalking_posY_of_walk _ _ _ _ h]
  · have h2 : isWalking (noJump i) = true := h
    rw [step001, animateWalking_posY_of_walk _ _ _ _ h,
      step001, animateWalking_posY_of_walk _ _ _ _ h2]
    simp [noJump]

/-- Witness for C9: a walking frame from rest, with and without the
jump key, ends at the ground level plus the bob. -/
theorem walking_bob_overrides_witness :
    (step001 restState walkInput).posY = restState.groundLevel + bodyBob false 0
    ∧ (step001 restState { walkInput with space := true }).posY
        = (step001 restState (noJump { walkInput with space := true })).posY :=
  ⟨walking_bob_overrides.1 restState walkInput rfl,
   walking_bob_overrides.2.2 restState { walkInput with space := true } rfl⟩

/-- Counterexample for C7: the claim says every variant smooths idle
joint angles toward 0 with interpolation factor 0.1 per frame, citing
`main.js` among its sources; but `main.js` sets the idle angles to 0
directly, so from an angle of 0.7 one idle frame produces 0, not
`lerp 0.7 0 0.1 = 0.63`. -/
theorem idle_smoothing_cex :
    (stepMain ⟨0, 0, 0, 0, 0, 0, false, 0.7, 0, 0, 0⟩ idleInput).leftArm = 0
    ∧ lerp 0.7 0 0.1 = 0.63
    ∧ (stepMain ⟨0, 0, 0, 0, 0, 0, false, 0.7, 0, 0, 0⟩ idleInput).leftArm
        ≠ lerp 0.7 0 0.1 := by
  refine ⟨?_, ?_, ?_⟩
  · rw [stepMain_leftArm]; simp [swingMain, idleInput]
  · unfold lerp; norm_num
  · rw [stepMain_leftArm]; simp [swingMain, idleInput, lerp]; norm_num

/-- Claim C7 as amended: in the `part_000`/`part_001` variants an idle
frame lerps every joint angle toward 0 by the fixed factor 0.1, and the
magnitude of each angle never increases (monotone convergence toward
0); in `main.js` an idle frame resets every joint angle to 0 directly
instead. -/
theorem idle_smoothing_amended :
    (∀ (s : CharState) (i : Input), isWalking i = false →
        (step001 s i).leftArm = lerp s.leftArm 0 0.1
        ∧ (step001 s i).rightArm = lerp s.rightArm 0 0.1
        ∧ (step001 s i).leftLeg = lerp s.leftLeg 0 0.1
        ∧ (step001 s i).rightLeg = lerp s.rightLeg 0 0.1
        ∧ |(step001 s i).leftArm| ≤ |s.leftArm|
        ∧ |(step001 s i).rightArm| ≤ |s.rightArm|
        ∧ |(step001 s i).leftLeg| ≤ |s.leftLeg|
        ∧ |(step001 s i).rightLeg| ≤ |s.rightLeg|)
    ∧ (∀ (m : MainState) (i : Input), (i.up || i.down) = false →
        (stepMain m i).leftArm = 0 ∧ (stepMain m i).rightArm = 0
        ∧ (stepMain m i).leftLeg = 0 ∧ (stepMain m i).rightLeg = 0) := by
  constructor
  · intro s i h
    have key : ∀ a : ℝ, |lerp a 0 0.1| ≤ |a| := by
      intro a
      have h9 : lerp a 0 0.1 = 0.9 * a := by unfold lerp; ring
      have habs : |(0.9 : ℝ)| = 0.9 := by norm_num
      rw [h9, abs_mul, habs]
      linarith [abs_nonneg a]
    refine ⟨step001_leftArm_of_not s i h, step001_rightArm_of_not s i h,
      step001_leftLeg_of_not s i h, step001_rightLeg_of_not s i h, ?_, ?_, ?_, ?_⟩
    · rw [step001_leftArm_of_not s i h]; exact key _
    · rw [step001_rightArm_of_not s i h]; exact key _
    · rw [step001_leftLeg_of_not s i h]; exact key _
    · rw [step001_rightLeg_of_not s i h]; exact key _
  · intro m i h
    rw [stepMain_leftArm, stepMain_rightArm, stepMain_leftLeg, stepMain_rightLeg, h]
    simp [swingMain, swingOppMain]

/-- Witness for the amended C7: one idle frame from a bent pose lerps
the `part_001` angles by 0.1 and zeroes the `main.js` angles. -/
theorem idle_smoothing_amended_witness :
    (step001 ⟨0, 2.34, 0, 0, 0, 0, false, 0.7, 0.2, 0.1, 0.4, 2.34⟩ idleInput).leftArm
        = lerp 0.7 0 0.1
    ∧ (stepMain ⟨0, 0, 0, 0, 0, 0, false, 0.7, 0, 0, 0⟩ leftInput).leftArm = 0 :=
  ⟨(idle_smoothing_amended.1 ⟨0, 2.34, 0, 0, 0, 0, false, 0.7, 0.2, 0.1, 0.4, 2.34⟩
      idleInput rfl).1,
   (idle_smoothing_amended.2 ⟨0, 0, 0, 0, 0, 0, false, 0.7, 0, 0, 0⟩ leftInput rfl).1⟩

/-- Counterexample for C3: the claim says that in every variant,
holding backward at yaw 0 displaces the position by exactly
`(0, 0, -walkSpeed * 0.6)`, citing `main.js` among its sources; but in
`main.js` the backward key moves the character along positive z at the
full speed: the displacement is `(0, 0, 0.05)`, not `(0, 0, -0.03)`. -/
theorem forward_displacement_cex :
    (stepMain restStateMain backInput).posZ = 0.05
    ∧ (stepMain restStateMain backInput).posZ ≠ -(0.05 * 0.6) := by
  have h : (stepMain restStateMain backInput).posZ = 0.05 := by
    rw [stepMain_posZ]
    simp [backInput, restStateMain, directionZ, yawMain, walkSpeedMain]
  exact ⟨h, by rw [h]; norm_num⟩

/-- Claim C3 as amended: in `part_000`/`part_001`, a frame at yaw 0
holding only forward displaces the horizontal position by exactly
`(0, 0, moveSpeed)` (walk or run speed), and holding only backward by
exactly `(0, 0, -(moveSpeed * 0.6))`; in `main.js` (with no turn key
held) forward instead displaces by `(0, 0, -moveSpeed)` and backward
by `(0, 0, moveSpeed)`, at full speed with no 0.6 factor. -/
theorem forward_displacement_amended :
    (∀ (s : CharState) (i : Input), s.yaw = 0 → i.up = true → i.down = false →
        (step001 s i).posX = s.posX
        ∧ (step001 s i).posZ = s.posZ + moveSpeed i.shift)
    ∧ (∀ (s : CharState) (i : Input), s.yaw = 0 → i.up = false → i.down = true →
        (step001 s i).posX = s.posX
        ∧ (step001 s i).posZ = s.posZ - moveSpeed i.shift * 0.6)
    ∧ (∀ (m : MainState) (i : Input), m.yaw = 0 → i.left = false → i.right = false →
        i.up = true → i.down = false →
        (stepMain m i).posX = m.posX
        ∧ (stepMain m i).posZ
            = m.posZ - (if i.shift then runSpeedMain else walkSpeedMain))
    ∧ (∀ (m : MainState) (i : Input), m.yaw = 0 → i.left = false → i.right = false →
        i.up = false → i.down = true →
        (stepMain m i).posX = m.posX
        ∧ (stepMain m i).posZ
            = m.posZ + (if i.shift then runSpeedMain else walkSpeedMain)) := by
  refine ⟨fun s i hy hu hd => ?_, fun s i hy hu hd => ?_,
    fun m i hy hl hr hu hd => ?_, fun m i hy hl hr hu hd => ?_⟩
  · rw [step001_posX, step001_posZ, hy, hu, hd]; simp
  · rw [step001_posX, step001_posZ, hy, hu, hd]; simp; ring
  · have hyaw : yawMain m i = 0 := by simp [yawMain, hl, hr, hy]
    rw [stepMain_posX, stepMain_posZ, hyaw, hu, hd]
    simp [directionZ, hu, hd]
    split_ifs <;> ring
  · have hyaw : yawMain m i = 0 := by simp [yawMain, hl, hr, hy]
    rw [stepMain_posX, stepMain_posZ, hyaw, hu, hd]
    simp [directionZ, hu, hd]

/-- Witness for the amended C3: one forward frame and one backward
frame at yaw 0, in both loops, from rest. -/
theorem forward_displacement_amended_witness :
    (step001 restState walkInput).posZ = restState.posZ + moveSpeed false
    ∧ (step001 restState backInput).posZ = restState.posZ - moveSpeed false * 0.6
    ∧ (stepMain restStateMain walkInput).posZ = restStateMain.posZ - walkSpeedMain
    ∧ (stepMain restStateMain backInput).posZ = restStateMain.posZ + walkSpeedMain :=
  ⟨(forward_displacement_amended.1 restState walkInput rfl rfl rfl).2,
   (forward_displacement_amended.2.1 restState backInput rfl rfl rfl).2,
   (forward_displacement_amended.2.2.1 restStateMain walkInput rfl rfl rfl rfl rfl).2,
   (forward_displacement_amended.2.2.2 restStateMain backInput rfl rfl rfl rfl rfl).2⟩

/-- Counterexample for C8: the claim says every variant applies the
forward and the backward displacement independently when both keys are
held, citing `main.js` among its sources; but in `main.js` the
backward handler overwrites the shared direction vector, so with both
keys held the frame displaces by `(0, 0, 0.05)` — while applying the
two single-key displacements independently would cancel to 0. -/
theorem both_keys_cex :
    (stepMain restStateMain bothInput).posZ = 0.05
    ∧ ((stepMain restStateMain { bothInput with down := false }).posZ - restStateMain.posZ)
      + ((stepMain restStateMain { bothInput with up := false }).posZ - restStateMain.posZ)
        = 0
    ∧ (0.05 : ℝ) ≠ 0 := by
  refine ⟨?_, ?_, by norm_num⟩
  · rw [stepMain_posZ]
    simp [bothInput, restStateMain, directionZ, yawMain, walkSpeedMain]
  · rw [stepMain_posZ, stepMain_posZ]
    simp [bothInput, restStateMain, directionZ, yawMain, walkSpeedMain]

/-- Claim C8 as amended: in `part_000`/`part_001`, when forward and
backward are both held each displacement is applied independently in
the same frame — the net horizontal displacement is the sum of the two
single-key displacements (forward vector times speed plus negated
forward vector times speed times 0.6); in `main.js`, the backward
handler overwrites the direction, so a both-keys frame equals the
backward-only frame. -/
theorem both_keys_amended :
    (∀ (s : CharState) (i : Input), i.up = true → i.down = true →
        (step001 s i).posX
          = s.posX + Real.sin s.yaw * moveSpeed i.shift
            + -Real.sin s.yaw * (moveSpeed i.shift * 0.6)
        ∧ (step001 s i).posZ
          = s.posZ + Real.cos s.yaw * moveSpeed i.shift
            + -Real.cos s.yaw * (moveSpeed i.shift * 0.6)
        ∧ (step001 s i).posX - s.posX
          = ((step001 s { i with down := false }).posX - s.posX)
            + ((step001 s { i with up := false }).posX - s.posX)
        ∧ (step001 s i).posZ - s.posZ
          = ((step001 s { i with down := false }).posZ - s.posZ)
            + ((step001 s { i with up := false }).posZ - s.posZ))
    ∧ (∀ (m : MainState) (i : Input), i.up = true → i.down = true →
        stepMain m i = stepMain m { i with up := false }) := by
  constructor
  · intro s i hu hd
    refine ⟨?_, ?_, ?_, ?_⟩
    · rw [step001_posX]; simp [hu, hd]
    · rw [step001_posZ]; simp [hu, hd]
    · rw [step001_posX, step001_posX, step001_posX]; simp [hu, hd]; ring
    · rw [step001_posZ, step001_posZ, step001_posZ]; simp [hu, hd]; ring
  · intro m i hu hd
    have ht : applyTurnMain m { i with up := false } = applyTurnMain m i := rfl
    have hj : applyJumpMain (applyTurnMain m i) { i with up := false }
        = applyJumpMain (applyTurnMain m i) i := rfl
    have htr : translateMain (integrateMain (applyJumpMain (applyTurnMain m i) i))
          { i with up := false }
        = translateMain (integrateMain (applyJumpMain (applyTurnMain m i) i)) i := by
      simp [translateMain, directionZ, hd]
    simp only [stepMain, ht, hj, htr]
    simp [hu, hd]

/-- Witness for the amended C8: a both-keys frame from rest in both
loops. -/
theorem both_keys_amended_witness :
    (step001 restState bothInput).posZ
      = restState.posZ + Real.cos restState.yaw * moveSpeed false
        + -Real.cos restState.yaw * (moveSpeed false * 0.6)
    ∧ stepMain restStateMain bothInput = stepMain restStateMain { bothInput with up := false } :=
  ⟨(both_keys_amended.1 restState bothInput rfl rfl).2.1,
   both_keys_amended.2 restStateMain bothInput rfl rfl⟩

/-- Claim C2: jump edge-trigger.  While airborne (`isJumping = true`) a
frame with the jump key held is identical to the same frame with it
released — holding jump across airborne frames never re-applies the
impulse and a press while airborne is a no-op; a press while not
airborne adds the jump impulse to the vertical velocity exactly once
(the one-shot force is consumed and cleared the same frame) and
latches the airborne flag until the clamp clears it.  Both the
`part_001` loop and the `main.js` loop behave this way. -/
theorem jump_edge_trigger :
    (∀ (s : CharState) (i : Input), s.isJumping = true →
        step001 s i = step001 s (noJump i))
    ∧ (∀ (s : CharState) (i : Input), s.isJumping = false → i.space = true →
        (preContact s i).velY = s.velY + gravity + jumpImpulse
        ∧ (preContact s i).isJumping = true
        ∧ (step001 s i).jumpForce = 0
        ∧ (s.groundLevel < (preContact s i).posY → (step001 s i).isJumping = true))
    ∧ (∀ (m : MainState) (i : Input), m.isJumping = true →
        stepMain m i = stepMain m (noJump i)) := by
  refine ⟨fun s i h => ?_, fun s i hj hsp => ?_, fun m i h => ?_⟩
  · have h1 : applyJump (applyTurn (applyMovement s i) i) i
        = applyTurn (applyMovement s i) i := by
      simp [applyJump, h]
    have hm : applyMovement s (noJump i) = applyMovement s i := rfl
    have ht : applyTurn (applyMovement s i) (noJump i) = applyTurn (applyMovement s i) i := rfl
    have h2 : applyJump (applyTurn (applyMovement s i) i) (noJump i)
        = applyTurn (applyMovement s i) i := by
      simp [applyJump, noJump]
    have hw : isWalking (noJump i) = isWalking i := rfl
    have hsh : (noJump i).shift = i.shift := rfl
    have hti : (noJump i).time = i.time := rfl
    simp only [step001, preContact, hm, ht, h1, h2, hw, hsh, hti]
  · refine ⟨?_, ?_, step001_jumpForce s i, fun hgt => ?_⟩
    · rw [preContact_velY, hj, hsp]; simp
    · rw [preContact_isJumping, hj, hsp]; simp
    · have hgl : (preContact s i).groundLevel = s.groundLevel := preContact_groundLevel s i
      have hgt2 : (preContact s i).groundLevel < (preContact s i).posY := by
        rw [hgl]; exact hgt
      have : (step001 s i).isJumping = (resolveFlat (preContact s i)).isJumping := by
        simp [step001]
      rw [this, resolveFlat_of_gt _ hgt2, preContact_isJumping, hsp]
      simp
  · have h1 : applyJumpMain (applyTurnMain m i) i = applyTurnMain m i := by
      simp [applyJumpMain, h]
    have hmt : applyTurnMain m (noJump i) = applyTurnMain m i := rfl
    have h2 : applyJumpMain (applyTurnMain m i) (noJump i) = applyTurnMain m i := by
      simp [applyJumpMain, noJump]
    have htr : ∀ x : MainState, translateMain x (noJump i) = translateMain x i :=
      fun x => rfl
    have hw : ((noJump i).up || (noJump i).down) = (i.up || i.down) := rfl
    have hsh : (noJump i).shift = i.shift := rfl
    have hti : (noJump i).time = i.time := rfl
    simp only [stepMain, hmt, h1, h2, htr, hw, hsh, hti]

/-- Witness for C2: an airborne frame ignores the jump key in both
loops; a grounded press from rest adds the impulse once and latches
the airborne flag. -/
theorem jump_edge_trigger_witness :
    step001 ⟨0, 5, 0, 0, 0.1, 0, true, 0, 0, 0, 0, 2.34⟩ jumpInput
      = step001 ⟨0, 5, 0, 0, 0.1, 0, true, 0, 0, 0, 0, 2.34⟩ (noJump jumpInput)
    ∧ (preContact restState jumpInput).velY = restState.velY + gravity + jumpImpulse
    ∧ (step001 restState jumpInput).isJumping = true
    ∧ stepMain ⟨0, 5, 0, 0, 0, 0, true, 0, 0, 0, 0⟩ jumpInput
      = stepMain ⟨0, 5, 0, 0, 0, 0, true, 0, 0, 0, 0⟩ (noJump jumpInput) := by
  have hpos : restState.groundLevel < (preContact restState jumpInput).posY := by
    rw [preContact_posY]
    norm_num [restState, jumpInput, gravity, jumpImpulse]
  exact ⟨jump_edge_trigger.1 _ jumpInput rfl,
    (jump_edge_trigger.2.1 restState jumpInput rfl rfl).1,
    (jump_edge_trigger.2.1 restState jumpInput rfl rfl).2.2.2 hpos,
    jump_edge_trigger.2.2 _ jumpInput rfl⟩

/-- Walking input whose clock puts the gait phase at its peak:
`time * frequency = pi/2`. -/
def gaitInput : Input := ⟨true, false, false, false, false, false, Real.pi / 6⟩

/-- Counterexample for C4: the claim says `leftArm ≈ -rightLeg` at
every sampled phase, but in the code the left arm swings in phase with
the right leg (both follow `sin(phase)`), with different amplitudes:
at the phase peak the left arm angle is 0.5 and the right leg angle is
0.6, so `leftArm = -rightLeg` fails (0.5 is not -0.6). -/
theorem gait_antiphase_cex :
    (step001 restState gaitInput).leftArm = 0.5
    ∧ (step001 restState gaitInput).rightLeg = 0.6
    ∧ (step001 restState gaitInput).leftArm ≠ -(step001 restState gaitInput).rightLeg := by
  have hw : isWalking gaitInput = true := rfl
  have hla : (step001 restState gaitInput).leftArm = 0.5 := by
    rw [step001_leftArm_of_walk _ _ hw]
    simp only [gaitInput, frequency, armAmplitude, Bool.false_eq_true, if_false]
    rw [show Real.pi / 6 * 3 = Real.pi / 2 by ring, Real.sin_pi_div_two]
    norm_num
  have hrl : (step001 restState gaitInput).rightLeg = 0.6 := by
    rw [step001_rightLeg_of_walk _ _ hw]
    simp only [gaitInput, frequency, legAmplitude, Bool.false_eq_true, if_false]
    rw [show Real.pi / 6 * 3 = Real.pi / 2 by ring, Real.sin_pi_div_two]
    norm_num
  refine ⟨hla, hrl, ?_⟩
  rw [hla, hrl]
  norm_num

/-- Claim C4 as amended: during walking the legs are in exact
antiphase (`leftLeg = -rightLeg`) and so are the arms
(`rightArm = -leftArm`); the left arm swings in phase with the right
leg, equal up to the arm/leg amplitude ratio
(`leftArm * legAmplitude = rightLeg * armAmplitude`), not opposed to
it; and both swing amplitudes are strictly larger when the run
modifier is active, holding the phase argument fixed. -/
theorem gait_antiphase_amended :
    ∀ (s : CharState) (i : Input), isWalking i = true →
      (step001 s i).leftLeg = -(step001 s i).rightLeg
      ∧ (step001 s i).rightArm = -(step001 s i).leftArm
      ∧ (step001 s i).leftArm * legAmplitude i.shift
          = (step001 s i).rightLeg * armAmplitude i.shift
      ∧ armAmplitude false < armAmplitude true
      ∧ legAmplitude false < legAmplitude true := by
  intro s i h
  rw [step001_leftArm_of_walk _ _ h, step001_rightArm_of_walk _ _ h,
    step001_leftLeg_of_walk _ _ h, step001_rightLeg_of_walk _ _ h]
  refine ⟨?_, ?_, by ring, by norm_num [armAmplitude], by norm_num [legAmplitude]⟩
  · rw [Real.sin_add_pi]; ring
  · rw [Real.sin_add_pi]; ring

/-- Witness for the amended C4: the leg antiphase at the concrete peak
phase. -/
theorem gait_antiphase_amended_witness :
    (step001 restState gaitInput).leftLeg = -(step001 restState gaitInput).rightLeg :=
  (gait_antiphase_amended restState gaitInput rfl).1

/-- The grounded regime of the `part_001` loop: airborne latch clear,
no pending jump force, vertical velocity one of the three values the
walking bob can leave behind (0 after a clamp, or one or two frames of
accumulated gravity while the bob holds the height above the ground),
and the height within the bob band above the ground level. -/
def GroundedInv (s : CharState) : Prop :=
  s.isJumping = false ∧ s.jumpForce = 0
  ∧ (s.velY = 0 ∨ s.velY = -0.02 ∨ s.velY = -0.04)
  ∧ s.groundLevel ≤ s.posY ∧ s.posY ≤ s.groundLevel + 0.05

/-- Claim C1: ground clamp idempotence and grounded invariant.  In any
frame whose integrated height is at or below the contact height at the
resolution step, the resolved height equals the contact height
exactly, the vertical velocity is zeroed and the airborne latch is
cleared — in the flat variant (contact height `groundLevel`) and in
the mesh variant (contact height from the ray hit) alike.  Moreover
the grounded regime is preserved by every jump-free frame of the flat
loop: the character never sinks below the ground level and never rises
above it by more than the bob amplitude 0.05. -/
theorem ground_clamp_idempotence :
    (∀ (s : CharState) (i : Input), isWalking i = false →
        (preContact s i).posY ≤ s.groundLevel →
        (step001 s i).posY = s.groundLevel ∧ (step001 s i).velY = 0
        ∧ (step001 s i).isJumping = false)
    ∧ (∀ (h : Surface) (s : CharState) (i : Input) (c : ℝ), isWalking i = false →
        raycastDown h (preContact s i).posX (preContact s i).posZ
          ((preContact s i).posY + 1) = some c →
        (preContact s i).posY ≤ c →
        (step000 (some h) s i).posY = c ∧ (step000 (some h) s i).velY = 0
        ∧ (step000 (some h) s i).isJumping = false)
    ∧ (∀ (s : CharState) (i : Input), GroundedInv s → i.space = false →
        GroundedInv (step001 s i)) := by
  refine ⟨?_, ?_, ?_⟩
  · intro s i hw hle
    have hle2 : (preContact s i).posY ≤ (preContact s i).groundLevel := by
      rw [preContact_groundLevel]; exact hle
    have hres := resolveFlat_of_le _ hle2
    refine ⟨?_, ?_, ?_⟩
    · rw [step001, animateWalking_posY_of_not _ _ _ _ hw, hres]; simp
    · simp [step001, hres]
    · simp [step001, hres]
  · intro h s i c hw hray hle
    have hc : (preContact s i).posY ≤ c + 0.01 := by linarith
    have hres := resolveMesh_hit_clamp _ h c hray hc
    refine ⟨?_, ?_, ?_⟩
    · rw [step000, animateWalking_posY_of_not _ _ _ _ hw, hres]
    · simp [step000, hres]
    · simp [step000, hres]
  · intro s i hInv hsp
    obtain ⟨hj, hjf, hv, hlo, hhi⟩ := hInv
    have hgrav : gravity = -0.02 := rfl
    have hpv : (preContact s i).velY = s.velY + gravity := by
      rw [preContact_velY, hsp, hjf]; simp
    have hpy : (preContact s i).posY = s.posY + (s.velY + gravity) := by
      rw [preContact_posY, hsp, hjf]; simp
    have hpj : (preContact s i).isJumping = false := by
      rw [preContact_isJumping, hsp, hj]; simp
    have hpg : (preContact s i).groundLevel = s.groundLevel := preContact_groundLevel s i
    have hvle : s.velY ≤ 0 := by rcases hv with h1 | h1 | h1 <;> rw [h1] <;> norm_num
    have hfgl : (step001 s i).groundLevel = s.groundLevel := by simp [step001]
    have hfjf : (step001 s i).jumpForce = 0 := step001_jumpForce s i
    by_cases hcl : (preContact s i).posY ≤ (preContact s i).groundLevel
    · have hres := resolveFlat_of_le _ hcl
      have hfv : (step001 s i).velY = 0 := by simp [step001, hres]
      have hfj : (step001 s i).isJumping = false := by simp [step001, hres]
      cases hwk : isWalking i with
      | false =>
        have hfy : (step001 s i).posY = s.groundLevel := by
          rw [step001, animateWalking_posY_of_not _ _ _ _ hwk, hres]; simp
        exact ⟨hfj, hfjf, Or.inl hfv, by rw [hfgl, hfy], by rw [hfgl, hfy]; norm_num⟩
      | true =>
        have hfy : (step001 s i).posY = s.groundLevel + bodyBob i.shift i.time := by
          rw [step001, animateWalking_posY_of_walk _ _ _ _ hwk, hres]; simp
        refine ⟨hfj, hfjf, Or.inl hfv, ?_, ?_⟩
        · rw [hfgl, hfy]; linarith [bodyBob_nonneg i.shift i.time]
        · rw [hfgl, hfy]; linarith [bodyBob_le i.shift i.time]
    · have hgt : (preContact s i).groundLevel < (preContact s i).posY := not_le.mp hcl
      have hres := resolveFlat_of_gt _ hgt
      have hfv : (step001 s i).velY = s.velY + gravity := by simp [step001, hres, hpv]
      have hfj : (step001 s i).isJumping = false := by simp [step001, hres, hpj]
      have hvdis : (step001 s i).velY = -0.02 ∨ (step001 s i).velY = -0.04 := by
        rcases hv with h1 | h1 | h1
        · left; rw [hfv, h1, hgrav]; norm_num
        · right; rw [hfv, h1, hgrav]; norm_num
        · exfalso
          rw [hpg, hpy, h1, hgrav] at hgt
          linarith
      cases hwk : isWalking i with
      | false =>
        have hfy : (step001 s i).posY = (preContact s i).posY := by
          rw [step001, animateWalking_posY_of_not _ _ _ _ hwk, hres]
        refine ⟨hfj, hfjf, Or.inr hvdis, ?_, ?_⟩
        · rw [hfgl, hfy]; rw [hpg] at hgt; linarith
        · rw [hfgl, hfy, hpy, hgrav]; linarith
      | true =>
        have hfy : (step001 s i).posY = s.groundLevel + bodyBob i.shift i.time := by
          rw [step001, animateWalking_posY_of_walk _ _ _ _ hwk, hres, hpg]
        refine ⟨hfj, hfjf, Or.inr hvdis, ?_, ?_⟩
        · rw [hfgl, hfy]; linarith [bodyBob_nonneg i.shift i.time]
        · rw [hfgl, hfy]; linarith [bodyBob_le i.shift i.time]

/-- Probe state for the mesh resolution: slightly above height 1 and
falling free. -/
def probeState : CharState := ⟨0, 1.02, 0, 0, 0, 0, false, 0, 0, 0, 0, 2.34⟩

/-- A surface at constant height 1.9 everywhere. -/
def midSurface : Surface := fun _ _ => some 1.9

/-- A surface at constant height 10 everywhere. -/
def highSurface : Surface := fun _ _ => some 10

/-- Witness for C1: a descending airborne frame clamps exactly to the
flat ground level; a ray hit clamps exactly to the contact height in
the mesh variant; the grounded regime survives an idle frame from
rest. -/
theorem ground_clamp_idempotence_witness :
    (step001 ⟨0, 2.3, 0, 0, 0, 0, true, 0, 0, 0, 0, 2.34⟩ idleInput).posY = 2.34
    ∧ (step000 (some midSurface) probeState idleInput).posY = 1.9
    ∧ GroundedInv (step001 restState idleInput) := by
  have hpy : (preContact probeState idleInput).posY = 1 := by
    rw [preContact_posY]
    norm_num [probeState, idleInput, gravity]
  have hray : raycastDown midSurface (preContact probeState idleInput).posX
      (preContact probeState idleInput).posZ
      ((preContact probeState idleInput).posY + 1) = some 1.9 := by
    refine raycastDown_hit _ _ _ _ _ rfl ?_
    rw [hpy]; norm_num
  refine ⟨?_, ?_, ?_⟩
  · exact (ground_clamp_idempotence.1 ⟨0, 2.3, 0, 0, 0, 0, true, 0, 0, 0, 0, 2.34⟩
      idleInput rfl (by rw [preContact_posY]; norm_num [idleInput, gravity])).1
  · exact (ground_clamp_idempotence.2.1 midSurface probeState idleInput 1.9 rfl hray
      (by rw [hpy]; norm_num)).1
  · exact ground_clamp_idempotence.2.2 restState idleInput
      ⟨rfl, rfl, Or.inl rfl, by norm_num [restState], by norm_num [restState]⟩ rfl

/-- Claim C10: mesh-variant snap-up window.  The downward ray starts
exactly one unit above the character, so a surface whose contact point
is more than one unit above is never detected and the frame resolves
as if no platform were loaded; and whenever the ray reports a contact
with the height at most the contact height plus 0.01, the resolution
step sets the height to the contact height with the velocity zeroed
and the airborne latch cleared — including a contact above the
character, which lifts it upward by up to one unit in a single frame. -/
theorem mesh_snap_window :
    (∀ (h : Surface) (x z y : ℝ), (∀ c, h x z = some c → y + 1 < c) →
        raycastDown h x z (y + 1) = none)
    ∧ (∀ (h : Surface) (s : CharState) (i : Input),
        raycastDown h (preContact s i).posX (preContact s i).posZ
          ((preContact s i).posY + 1) = none →
        step000 (some h) s i = step000 none s i)
    ∧ (∀ (h : Surface) (s : CharState) (i : Input) (c : ℝ),
        raycastDown h (preContact s i).posX (preContact s i).posZ
          ((preContact s i).posY + 1) = some c →
        (preContact s i).posY ≤ c + 0.01 →
        (resolveMesh (some h) (preContact s i)).posY = c
        ∧ (resolveMesh (some h) (preContact s i)).velY = 0
        ∧ (resolveMesh (some h) (preContact s i)).isJumping = false
        ∧ (resolveMesh (some h) (preContact s i)).groundLevel = c
        ∧ (isWalking i = false → (step000 (some h) s i).posY = c
            ∧ (step000 (some h) s i).velY = 0
            ∧ (step000 (some h) s i).isJumping = false)) := by
  refine ⟨?_, ?_, ?_⟩
  · intro h x z y hup
    exact raycastDown_none_of_above h x z (y + 1) hup
  · intro h s i hray
    rw [step000, step000, resolveMesh_no_hit _ h hray, resolveMesh_none]
  · intro h s i c hray hle
    have hres := resolveMesh_hit_clamp _ h c hray hle
    rw [hres]
    refine ⟨rfl, rfl, rfl, rfl, fun hw => ⟨?_, ?_, ?_⟩⟩
    · rw [step000, animateWalking_posY_of_not _ _ _ _ hw, hres]
    · simp [step000, hres]
    · simp [step000, hres]

/-- Witness for C10: a surface ten units up is out of the ray's reach,
so the frame equals the no-platform frame; a surface 0.9 above the
probe is snapped to, lifting the character upward in one frame. -/
theorem mesh_snap_window_witness :
    raycastDown highSurface 0 0 (1 + 1) = none
    ∧ step000 (some highSurface) probeState idleInput = step000 none probeState idleInput
    ∧ (step000 (some midSurface) probeState idleInput).velY = 0 := by
  have hpy : (preContact probeState idleInput).posY = 1 := by
    rw [preContact_posY]
    norm_num [probeState, idleInput, gravity]
  have hray : raycastDown midSurface (preContact probeState idleInput).posX
      (preContact probeState idleInput).posZ
      ((preContact probeState idleInput).posY + 1) = some 1.9 := by
    refine raycastDown_hit _ _ _ _ _ rfl ?_
    rw [hpy]; norm_num
  have habove : ∀ c, highSurface (preContact probeState idleInput).posX
      (preContact probeState idleInput).posZ = some c →
      (preContact probeState idleInput).posY + 1 < c := by
    intro c hc
    have : (10 : ℝ) = c := by
      have := hc
      simp [highSurface] at this
      exact this
    rw [← this, hpy]; norm_num
  refine ⟨?_, ?_, ?_⟩
  · exact mesh_snap_window.1 highSurface 0 0 1 (by intro c hc; simp [highSurface] at hc; rw [← hc]; norm_num)
  · exact mesh_snap_window.2.1 highSurface probeState idleInput
      (raycastDown_none_of_above _ _ _ _ habove)
  · exact (mesh_snap_window.2.2 midSurface probeState idleInput 1.9 hray
      (by rw [hpy]; norm_num)).2.2.2.2 rfl |>.2.1

/-- Input stream holding forward forever, with the clock advancing by
one sixth of pi per frame so that the bob term vanishes at every
sample. -/
def freefallWalkIns (n : ℕ) : Input := ⟨true, false, false, false, false, false, n * Real.pi / 6⟩

lemma freefall_walk_const (n : ℕ) :
    (run000 none freefallWalkIns restState n).posY = 2.34
    ∧ (run000 none freefallWalkIns restState n).groundLevel = 2.34 := by
  induction n with
  | zero => exact ⟨rfl, rfl⟩
  | succ k ih =>
    obtain ⟨hy, hg⟩ := ih
    have hb : bodyBob false ((k : ℝ) * Real.pi / 6) = 0 := by
      have h3 : frequency false = 3 := rfl
      unfold bodyBob
      rw [h3, show ((k : ℝ) * Real.pi / 6 * 3 * 2) = (k : ℝ) * Real.pi by ring,
        Real.sin_nat_mul_pi]
      simp
    have hsh : (freefallWalkIns k).shift = false := rfl
    have hti : (freefallWalkIns k).time = (k : ℝ) * Real.pi / 6 := rfl
    have hw : isWalking (freefallWalkIns k) = true := rfl
    constructor
    · rw [run000, step000_none, animateWalking_posY_of_walk _ _ _ _ hw,
        preContact_groundLevel, hg, hsh, hti, hb]
      norm_num
    · rw [run000, step000_none_groundLevel, hg]

/-- Counterexample for C5: the claim quantifies over every execution
with the surface never loaded, but when a forward key is held the
walking bob overwrites the height with the remembered ground level
plus the bob each frame, so the height never decreases: holding
forward under a never-loading platform keeps the height at 2.34
forever, and no tail of frames is strictly decreasing. -/
theorem freefall_missing_surface_cex :
    ¬ ∃ N : ℕ, ∀ n : ℕ, N ≤ n →
      (run000 none freefallWalkIns restState (n + 1)).posY
        < (run000 none freefallWalkIns restState n).posY := by
  rintro ⟨N, hN⟩
  have h1 := (freefall_walk_const (N + 1)).1
  have h2 := (freefall_walk_const N).1
  have hlt := hN N le_rfl
  rw [h1, h2] at hlt
  exact lt_irrefl _ hlt

/-- Claim C5 as amended: with no platform mesh ever loaded, contact
resolution is skipped every frame, the vertical velocity is never
reset (it follows the pure gravity-plus-impulse recurrence), and the
airborne latch, once set, is never cleared; and in executions where
additionally no forward or backward key is ever held (so the walking
bob never overwrites the height), the height strictly decreases from
some frame `N` on. -/
theorem freefall_missing_surface_amended :
    (∀ (s : CharState) (i : Input),
        step000 none s i = animateWalking (isWalking i) i.shift i.time (preContact s i))
    ∧ (∀ (ins : ℕ → Input) (s : CharState) (n : ℕ),
        (run000 none ins s (n + 1)).velY
          = (run000 none ins s n).velY + gravity
            + (if (ins n).space && !(run000 none ins s n).isJumping then jumpImpulse
               else (run000 none ins s n).jumpForce))
    ∧ (∀ (ins : ℕ → Input) (s : CharState) (n : ℕ),
        (run000 none ins s n).isJumping = true →
        (run000 none ins s (n + 1)).isJumping = true)
    ∧ (∀ (ins : ℕ → Input) (s : CharState), s.jumpForce = 0 →
        (∀ n, (ins n).up = false ∧ (ins n).down = false) →
        ∃ N : ℕ, ∀ n, N ≤ n →
          (run000 none ins s (n + 1)).posY < (run000 none ins s n).posY) := by
  refine ⟨fun s i => step000_none s i, fun ins s n => ?_, fun ins s n h => ?_, ?_⟩
  · rw [run000, step000_none_velY]
  · rw [run000, step000_none_isJumping, h]
    simp
  · intro ins s hjf0 hnk
    have hjf : ∀ n, (run000 none ins s n).jumpForce = 0 := by
      intro n
      cases n with
      | zero => exact hjf0
      | succ k => rw [run000]; exact step000_none_jumpForce _ _
    have hwk : ∀ n, isWalking (ins n) = false := by
      intro n
      obtain ⟨hu, hd⟩ := hnk n
      simp [isWalking, hu, hd]
    have hrec : ∀ n, (run000 none ins s (n + 1)).velY
        = (run000 none ins s n).velY + gravity
          + (if (ins n).space && !(run000 none ins s n).isJumping then jumpImpulse else 0) := by
      intro n
      rw [run000, step000_none_velY, hjf n]
    have hisj : ∀ n, (run000 none ins s (n + 1)).isJumping
        = ((ins n).space || (run000 none ins s n).isJumping) := by
      intro n
      rw [run000, step000_none_isJumping]
    have hyrec : ∀ n, (run000 none ins s (n + 1)).posY
        = (run000 none ins s n).posY + (run000 none ins s (n + 1)).velY := by
      intro n
      rw [run000, step000_none_posY_of_not _ _ (hwk n), preContact_posY, hjf n,
        step000_none_velY, hjf n]
    have hg : gravity = -0.02 := rfl
    have hbound : ∀ n, ((run000 none ins s n).isJumping = false →
          (run000 none ins s n).velY ≤ s.velY - 0.02 * (n : ℝ))
        ∧ (run000 none ins s n).velY ≤ s.velY + jumpImpulse - 0.02 * (n : ℝ) := by
      intro n
      induction n with
      | zero =>
        constructor
        · intro _
          simp [run000]
        · simp [run000]
          norm_num [jumpImpulse]
      | succ k ih =>
        obtain ⟨ih1, ih2⟩ := ih
        have hr := hrec k
        by_cases hguard : ((ins k).space && !(run000 none ins s k).isJumping) = true
        · have hand := hguard
          rw [Bool.and_eq_true] at hand
          have hsp : (ins k).space = true := hand.1
          have hjkf : (run000 none ins s k).isJumping = false := by
            have h2 := hand.2
            simpa using h2
          constructor
          · intro hfj
            rw [hisj k, hsp] at hfj
            simp at hfj
          · rw [hr, if_pos hguard, hg]
            have hik := ih1 hjkf
            have hji : jumpImpulse = 0.3 := rfl
            rw [hji]
            push_cast
            linarith
        · have hr2 : (run000 none ins s (k + 1)).velY
              = (run000 none ins s k).velY + gravity + 0 := by
            rw [hr, if_neg hguard]
          constructor
          · intro hfj
            rw [hisj k] at hfj
            have hjk : (run000 none ins s k).isJumping = false := by
              rcases Bool.or_eq_false_iff.mp hfj with ⟨h1s, hjk⟩
              exact hjk
            have hik := ih1 hjk
            rw [hr2, hg]
            push_cast
            linarith
          · rw [hr2, hg]
            push_cast
            linarith
    obtain ⟨N, hNgt⟩ := exists_nat_gt (50 * (s.velY + jumpImpulse))
    refine ⟨N, fun n hn => ?_⟩
    have hb := (hbound (n + 1)).2
    have hji : jumpImpulse = 0.3 := rfl
    rw [hji] at hb hNgt
    have hcast : (N : ℝ) ≤ (n : ℝ) := Nat.cast_le.mpr hn
    have hneg : (run000 none ins s (n + 1)).velY < 0 := by
      push_cast at hb
      linarith
    rw [hyrec n]
    linarith

/-- Witness for the amended C5: with no platform and no keys held the
first frame from rest already descends, and the general theorem yields
a strictly descending tail for the all-idle input stream. -/
theorem freefall_missing_surface_amended_witness :
    (run000 none (fun _ => idleInput) restState 1).velY
      = (run000 none (fun _ => idleInput) restState 0).velY + gravity
        + (if idleInput.space && !(run000 none (fun _ => idleInput) restState 0).isJumping
           then jumpImpulse else (run000 none (fun _ => idleInput) restState 0).jumpForce)
    ∧ ∃ N : ℕ, ∀ n, N ≤ n →
        (run000 none (fun _ => idleInput) restState (n + 1)).posY
          < (run000 none (fun _ => idleInput) restState n).posY :=
  ⟨freefall_missing_surface_amended.2.1 (fun _ => idleInput) restState 0,
   freefall_missing_surface_amended.2.2.2 (fun _ => idleInput) restState rfl
     (fun _ => ⟨rfl, rfl⟩)⟩

end Stickman
